import Mathlib

/-!
Shallow embedding of the core of the `RustRayTracer` repository.

Real-number (`f64`) arithmetic is embedded over `ℚ`; the irrational
primitives `f64::sqrt` and `f64::tan` and the constant `PI / 180.0` are
passed as explicit function/constant parameters, so that every definition
stays computable and can be evaluated on concrete inputs.  IEEE-754
special values (NaN, infinities) are modelled separately by the `FP` type
for the claims that are about them.
-/

namespace RayTracer

/-- The struct `Vector3` from `src/vector3d/mod.rs`: a 3-dimensional vector
with `x`, `y`, `z` components.  The component type is a parameter so the
same definition serves both the idealized `ℚ` arithmetic and the `FP`
model of IEEE special values. -/
structure Vector3 (α : Type) where
  x : α
  y : α
  z : α
deriving DecidableEq, Repr

/-- `Vector3::add` from `src/vector3d/mod.rs`: componentwise sum, returning
a new vector. -/
def Vector3.add [Add α] (v w : Vector3 α) : Vector3 α :=
  ⟨v.x + w.x, v.y + w.y, v.z + w.z⟩

/-- `Vector3::sub` from `src/vector3d/mod.rs`: componentwise difference,
returning a new vector. -/
def Vector3.sub [Sub α] (v w : Vector3 α) : Vector3 α :=
  ⟨v.x - w.x, v.y - w.y, v.z - w.z⟩

/-- `Vector3::mul` from `src/vector3d/mod.rs`: multiplication by a scalar,
returning a new vector. -/
def Vector3.mul [Mul α] (v : Vector3 α) (other : α) : Vector3 α :=
  ⟨v.x * other, v.y * other, v.z * other⟩

/-- `Vector3::dot` from `src/vector3d/mod.rs`:
`v1.x * v2.x + v1.y * v2.y + v1.z * v2.z`. -/
def Vector3.dot [Add α] [Mul α] (v w : Vector3 α) : α :=
  v.x * w.x + v.y * w.y + v.z * w.z

/-- `Vector3::length` from `src/vector3d/mod.rs`: `sqrt(dot(self, self))`.
The square-root primitive is a parameter. -/
def Vector3.length [Add α] [Mul α] (sqrt : α → α) (v : Vector3 α) : α :=
  sqrt (v.dot v)

/-- `Vector3::into_unit` from `src/vector3d/mod.rs`: a new vector whose
components are those of `v` divided by `v.length()`. -/
def Vector3.into_unit [Add α] [Mul α] [Div α] (sqrt : α → α)
    (v : Vector3 α) : Vector3 α :=
  let length := v.length sqrt
  ⟨v.x / length, v.y / length, v.z / length⟩

/-- `Vector3::normalize` from `src/vector3d/mod.rs`: the in-place
normalization, rendered in state-passing style (the mutated receiver is
the returned value).  It computes `length` once and divides each
component by it, exactly like `into_unit`. -/
def Vector3.normalize [Add α] [Mul α] [Div α] (sqrt : α → α)
    (v : Vector3 α) : Vector3 α :=
  let length := v.length sqrt
  ⟨v.x / length, v.y / length, v.z / length⟩

/-- The struct `Ray` from `src/ray/mod.rs`: starting position and
direction.  `Ray::new` performs no validation, so the Lean constructor is
the anonymous one. -/
structure Ray where
  pos : Vector3 ℚ
  dir : Vector3 ℚ
deriving DecidableEq, Repr

/-- The struct `Sphere` from `src/sphere/mod.rs`: position and radius. -/
structure Sphere where
  pos : Vector3 ℚ
  radius : ℚ
deriving DecidableEq, Repr

/-- `Sphere::ray_intersection` from `src/sphere/mod.rs`, lines 78-91.
The Rust `match` with guards `x < 0.0` / `x == 0.0` / default is rendered
as the corresponding `if` chain; the source's binding names (including the
typo `discrimant`) are kept. -/
def Sphere.ray_intersection (sqrt : ℚ → ℚ) (s : Sphere) (r : Ray) :
    Option (ℚ × ℚ) :=
  let o_sub_c := r.pos.sub s.pos
  let len_sq_o_sub_c := o_sub_c.dot o_sub_c
  let dir_dot_o_sub_c := r.dir.dot o_sub_c
  let dir_dot_o_sub_c_sq := dir_dot_o_sub_c ^ 2
  let radius_sq := s.radius ^ 2
  let discrimant := dir_dot_o_sub_c_sq - len_sq_o_sub_c + radius_sq
  if discrimant < 0 then none
  else if discrimant = 0 then some (-dir_dot_o_sub_c, -dir_dot_o_sub_c)
  else some (-dir_dot_o_sub_c + sqrt discrimant,
             -dir_dot_o_sub_c - sqrt discrimant)

/-- The discriminant computed inside `Sphere::ray_intersection`
(`src/sphere/mod.rs`, line 84), exposed as a named quantity. -/
def Sphere.discriminant (s : Sphere) (r : Ray) : ℚ :=
  (r.dir.dot (r.pos.sub s.pos)) ^ 2
    - (r.pos.sub s.pos).dot (r.pos.sub s.pos) + s.radius ^ 2

/-- The sphere-intersection formula as the spec's section 4.3 words it:
`L = O - C`, `b = D·L`, `c = L·L - R²`, `discriminant = b² - c`, with
branches on the discriminant's sign.  Written from the spec, to be
compared with the source-derived `Sphere.ray_intersection`. -/
def ray_intersection_spec (sqrt : ℚ → ℚ) (center : Vector3 ℚ) (radius : ℚ)
    (r : Ray) : Option (ℚ × ℚ) :=
  let l := r.pos.sub center
  let b := r.dir.dot l
  let c := l.dot l - radius ^ 2
  let disc := b ^ 2 - c
  if disc < 0 then none
  else if disc = 0 then some (-b, -b)
  else some (-b + sqrt disc, -b - sqrt disc)

/-- A model of `f64` values with the IEEE-754 special values that the
spec's degenerate-geometry discussion is about: `nan`, the two infinities,
and finite values (modelled by `ℚ`).  The model has no signed zero, so a
division by zero takes the positive-zero branch of the IEEE rules. -/
inductive FP
  | nan
  | inf
  | ninf
  | finite (val : ℚ)
deriving DecidableEq, Repr

/-- IEEE-754 addition on `FP`: `nan` is absorbing, opposite infinities
give `nan`, an infinity otherwise dominates, and finite values add
exactly. -/
def FP.add : FP → FP → FP
  | .nan, _ => .nan
  | _, .nan => .nan
  | .inf, .ninf => .nan
  | .ninf, .inf => .nan
  | .inf, _ => .inf
  | _, .inf => .inf
  | .ninf, _ => .ninf
  | _, .ninf => .ninf
  | .finite a, .finite b => .finite (a + b)

/-- IEEE-754 multiplication on `FP`: `nan` is absorbing, infinity times
zero is `nan`, infinity times a nonzero finite value follows the sign
rule, and finite values multiply exactly. -/
def FP.mul : FP → FP → FP
  | .nan, _ => .nan
  | _, .nan => .nan
  | .finite a, .finite b => .finite (a * b)
  | .inf, .finite b => if 0 < b then .inf else if b < 0 then .ninf else .nan
  | .finite a, .inf => if 0 < a then .inf else if a < 0 then .ninf else .nan
  | .ninf, .finite b => if 0 < b then .ninf else if b < 0 then .inf else .nan
  | .finite a, .ninf => if 0 < a then .ninf else if a < 0 then .inf else .nan
  | .inf, .inf => .inf
  | .inf, .ninf => .ninf
  | .ninf, .inf => .ninf
  | .ninf, .ninf => .inf

/-- IEEE-754 division on `FP`: `nan` is absorbing, infinity over infinity
is `nan`, a finite value over an infinity is zero, division by zero gives
`nan` for `0/0` and a signed infinity otherwise, and nonzero finite
divisions are exact. -/
def FP.div : FP → FP → FP
  | .nan, _ => .nan
  | _, .nan => .nan
  | .inf, .inf => .nan
  | .inf, .ninf => .nan
  | .ninf, .inf => .nan
  | .ninf, .ninf => .nan
  | .inf, .finite b => if 0 ≤ b then .inf else .ninf
  | .ninf, .finite b => if 0 ≤ b then .ninf else .inf
  | .finite _, .inf => .finite 0
  | .finite _, .ninf => .finite 0
  | .finite a, .finite b =>
    if b = 0 then
      if a = 0 then .nan else if 0 < a then .inf else .ninf
    else .finite (a / b)

instance : Add FP := ⟨FP.add⟩

instance : Mul FP := ⟨FP.mul⟩

instance : Div FP := ⟨FP.div⟩

/-- IEEE-754 `sqrt` on `FP`: `nan` for `nan`, negative infinity and
negative finite arguments, `inf` for `inf`, and on nonnegative finite
arguments the supplied finite square-root approximation `s` (IEEE
guarantees `sqrt(0) = 0` exactly, which callers state as a hypothesis on
`s`). -/
def FP.sqrtWith (s : ℚ → ℚ) : FP → FP
  | .nan => .nan
  | .inf => .inf
  | .ninf => .nan
  | .finite a => if a < 0 then .nan else .finite (s a)

/-- The zero vector, over the `FP` model of `f64`. -/
def zeroVecFP : Vector3 FP := ⟨.finite 0, .finite 0, .finite 0⟩

/-- An 8-bit-per-channel RGB color, as used by the `sdl2::pixels::Color`
values stored in `Material` (`src/material/mod.rs`); the alpha channel is
never read by the core and is omitted. -/
structure Color where
  r : ℕ
  g : ℕ
  b : ℕ
deriving DecidableEq, Repr

/-- The struct `Material` from `src/material/mod.rs`: a single color. -/
structure Material where
  color : Color
deriving DecidableEq, Repr

/-- Modelled from the spec: the `object::sphere::Sphere` struct (the
`Object`-implementing sphere used by `run`) is not under `src/` — only the
`Object` trait declaration (`src/object/mod.rs`) and its callers are.
Per the spec's data model it carries a position, a radius and a
`Material`. -/
structure ObjectSphere where
  pos : Vector3 ℚ
  radius : ℚ
  material : Material
deriving DecidableEq, Repr

/-- Modelled from the spec: the impl of `Object::ray_intersection` for
`object::sphere::Sphere` is not under `src/`.  Per spec section 4.3 it
computes the quadratic roots `t0 = -b + sqrt(disc)`, `t1 = -b - sqrt(disc)`
and "picks `t1` ... unless `t1 < 0`, in which case `t0` is used", returning
"the raw closer-is-preferred root" even when it is negative. -/
def ObjectSphere.ray_intersection (sqrt : ℚ → ℚ) (o : ObjectSphere)
    (r : Ray) : Option ℚ :=
  match Sphere.ray_intersection sqrt ⟨o.pos, o.radius⟩ r with
  | none => none
  | some (t0, t1) => some (if t1 < 0 then t0 else t1)

/-- `Object::position` for the sphere variant: its center. -/
def ObjectSphere.position (o : ObjectSphere) : Vector3 ℚ :=
  o.pos

/-- The enum `ProjectionMode` from `src/lib.rs`, lines 20-25. -/
inductive ProjectionMode
  | Ortho
  | Perspective
deriving DecidableEq, Repr

/-- The initial projection mode: `run` starts with
`let mut mode = ProjectionMode::Perspective;` (`src/lib.rs`, line 104). -/
def initialMode : ProjectionMode :=
  .Perspective

/-- The `Keycode::P` handler from `src/lib.rs`, lines 115-121: if the mode
is `Ortho` it becomes `Perspective`, otherwise it becomes `Ortho`. -/
def toggleProjection (mode : ProjectionMode) : ProjectionMode :=
  if mode = .Ortho then .Perspective else .Ortho

/-- The input events the render loop reacts to besides quitting
(`src/lib.rs`, lines 110-139): the projection toggle `P` and the four
arrow keys adjusting the fields of view. -/
inductive InputEvent
  | keyP
  | keyUp
  | keyDown
  | keyRight
  | keyLeft
deriving DecidableEq, Repr

/-- The mutable interactive state of `run`: the two field-of-view angles
in degrees (initialized to 90.0) and the projection mode. -/
structure RenderState where
  fovx : ℚ
  fovy : ℚ
  mode : ProjectionMode
deriving DecidableEq, Repr

/-- The key-down match arms of the event loop (`src/lib.rs`, lines
115-137): `P` toggles the projection mode, `Up`/`Down` add/subtract 1.0
to `fovy`, `Right`/`Left` add/subtract 1.0 to `fovx`. -/
def handleEvent (s : RenderState) : InputEvent → RenderState
  | .keyP => { s with mode := toggleProjection s.mode }
  | .keyUp => { s with fovy := s.fovy + 1 }
  | .keyDown => { s with fovy := s.fovy - 1 }
  | .keyRight => { s with fovx := s.fovx + 1 }
  | .keyLeft => { s with fovx := s.fovx - 1 }

/-- `n` consecutive deliveries of the same input event. -/
def applyN (e : InputEvent) : ℕ → RenderState → RenderState
  | 0, s => s
  | n + 1, s => applyN e n (handleEvent s e)

/-- The `ProjectionMode::Ortho` arm of the per-pixel direction computation
(`src/lib.rs`, lines 151-156): `x = (dx - W/2)/W`, `y = (dy - H/2)/H`,
then `(x, y, 0) + camera_dir`, normalized. -/
def orthoDir (sqrt : ℚ → ℚ) (camera_dir : Vector3 ℚ)
    (width height dx dy : ℚ) : Vector3 ℚ :=
  let x := (dx - width / 2) / width
  let y := (dy - height / 2) / height
  let view_plane_pos := (Vector3.mk x y 0).add camera_dir
  view_plane_pos.into_unit sqrt

/-- The per-pixel ray in orthographic mode: `run` sets
`let pos = camera_pos.clone()` before the mode match (`src/lib.rs`, line
149) and builds `Ray::new(pos, dir)`, so the origin is the camera
position for every pixel. -/
def orthoRay (sqrt : ℚ → ℚ) (camera_pos camera_dir : Vector3 ℚ)
    (width height dx dy : ℚ) : Ray :=
  ⟨camera_pos, orthoDir sqrt camera_dir width height dx dy⟩

/-- The `ProjectionMode::Perspective` arm of the per-pixel direction
computation (`src/lib.rs`, lines 157-181).  `tan` and the constant
`DEGREES_TO_RADIANS = PI / 180.0` are parameters (`deg2rad`); the
source's binding names are kept. -/
def perspectiveDir (sqrt tan : ℚ → ℚ) (deg2rad : ℚ)
    (fovx fovy width height dx dy : ℚ) : Vector3 ℚ :=
  let pixel_x_ndc := (dx + 1/2) / width
  let pixel_y_ndc := (dy + 1/2) / height
  let pixel_screen_x := 2 * pixel_x_ndc - 1
  let pixel_screen_y := 2 * pixel_y_ndc - 1
  let aspect := width / height
  let pixel_camera_x := pixel_screen_x * aspect * tan (fovx / 2 * deg2rad)
  let pixel_camera_y := pixel_screen_y * tan (fovy / 2 * deg2rad)
  let pixel_camera_space := Vector3.mk pixel_camera_x pixel_camera_y (-1)
  pixel_camera_space.into_unit sqrt

/-- The perspective camera-ray direction as the spec's section 4.4 words
it: map the pixel to NDC, rescale to screen space via `2·ndc - 1`, scale
x by `aspect_ratio · tan(fovx/2)` and y by `tan(fovy/2)`, place the point
at camera-space depth `z = -1`, and normalize.  Written from the spec, to
be compared with the source-derived `perspectiveDir`. -/
def perspectiveDirSpec (sqrt tan : ℚ → ℚ) (deg2rad : ℚ)
    (fovx fovy width height dx dy : ℚ) : Vector3 ℚ :=
  let ndcX := (dx + 1/2) / width
  let ndcY := (dy + 1/2) / height
  let screenX := 2 * ndcX - 1
  let screenY := 2 * ndcY - 1
  let x := screenX * (width / height * tan (fovx / 2 * deg2rad))
  let y := screenY * tan (fovy / 2 * deg2rad)
  (Vector3.mk x y (-1)).into_unit sqrt

/-- The nearest-hit loop of `run` (`src/lib.rs`, lines 186-200): fold over
the scene's objects, keeping the intersection result with the smallest
reported `t` (with no positivity filter, exactly as in the source). -/
def nearestHit (sqrt : ℚ → ℚ) (objects : List ObjectSphere) (r : Ray) :
    Option (ℚ × ObjectSphere) :=
  objects.foldl
    (fun t obj =>
      match obj.ray_intersection sqrt r with
      | some t0 =>
        match t with
        | some (val, o) => if t0 < val then some (t0, obj) else some (val, o)
        | none => some (t0, obj)
      | none => t)
    none

/-- The Rust saturating float-to-`u8` cast `as u8`: truncate toward zero
and clamp into `0..=255` (negative values, like NaN, go to 0). -/
def f64_as_u8 (q : ℚ) : ℕ :=
  min 255 q.floor.toNat

/-- The shading branch of `run` on a hit (`src/lib.rs`, lines 201-213):
hit point `p`, normal `position - p` normalized, view `p - camera_pos`
normalized, the dot product clamped below by zero, and each 8-bit channel
of the material color scaled by it and cast back with `as u8`. -/
def shadeHit (sqrt : ℚ → ℚ) (camera_pos : Vector3 ℚ) (r : Ray) (t : ℚ)
    (obj : ObjectSphere) : Color :=
  let p := r.pos.add (r.dir.mul t)
  let normal := (obj.position.sub p).into_unit sqrt
  let view := (p.sub camera_pos).into_unit sqrt
  let proportion := normal.dot view
  let clamped := if proportion < 0 then 0 else proportion
  let c := obj.material.color
  { r := f64_as_u8 ((c.r : ℚ) * clamped),
    g := f64_as_u8 ((c.g : ℚ) * clamped),
    b := f64_as_u8 ((c.b : ℚ) * clamped) }

/-- The shading computation as the spec's section 4.5 words it: hit point
`P = O + t·D`, normal `N = normalize(object.position - P)`, view vector
`V = normalize(P - camera_pos)`, intensity `k = max(0, N·V)`, each
material channel scaled by `k` and truncated to the channel range.
Written from the spec, to be compared with the source-derived
`shadeHit`. -/
def shadeSpec (sqrt : ℚ → ℚ) (camera_pos o d : Vector3 ℚ) (t : ℚ)
    (objPos : Vector3 ℚ) (c : Color) : Color :=
  let p := o.add (d.mul t)
  let n := (objPos.sub p).into_unit sqrt
  let v := (p.sub camera_pos).into_unit sqrt
  let k := max 0 (n.dot v)
  { r := f64_as_u8 ((c.r : ℚ) * k),
    g := f64_as_u8 ((c.g : ℚ) * k),
    b := f64_as_u8 ((c.b : ℚ) * k) }

/-- The sphere of the spec's section 8 example: center (2,0,0), radius 1. -/
def exSphere : Sphere := ⟨⟨2, 0, 0⟩, 1⟩

/-- The ray of the spec's section 8 example: origin (0,0,0), unit
direction (1,0,0). -/
def xRay : Ray := ⟨⟨0, 0, 0⟩, ⟨1, 0, 0⟩⟩

/-- A scene sphere strictly behind `xRay`'s origin: center (-3,0,0),
radius 1, so both intersection roots (-2 and -4) are negative. -/
def sphereBehind : ObjectSphere := ⟨⟨-3, 0, 0⟩, 1, ⟨⟨255, 0, 0⟩⟩⟩

/-- A scene sphere in front of `xRay`'s origin: center (5,0,0), radius 1,
so both intersection roots (6 and 4) are positive. -/
def sphereFront : ObjectSphere := ⟨⟨5, 0, 0⟩, 1, ⟨⟨0, 255, 0⟩⟩⟩

/-- C2: for every sphere and ray, `Sphere::ray_intersection` agrees with
the spec's section 4.3 formula — `None` when the discriminant `b² - c` is
negative, the double root `(-b, -b)` when it is zero, and
`(-b + sqrt disc, -b - sqrt disc)` in that order when it is positive —
and for the sphere at (2,0,0) of radius 1 and the ray from the origin
with direction (1,0,0), any square-root function with `sqrt 1 = 1` (as
`f64::sqrt` is at 1) yields exactly the pair `(3, 1)`. -/
theorem C2_ray_intersection_matches_spec_formula :
    (∀ (sqrt : ℚ → ℚ) (s : Sphere) (r : Ray),
      Sphere.ray_intersection sqrt s r
        = ray_intersection_spec sqrt s.pos s.radius r)
    ∧ ∀ (sqrt : ℚ → ℚ), sqrt 1 = 1 →
        Sphere.ray_intersection sqrt exSphere xRay = some (3, 1) := by
  constructor
  · intro sqrt s r
    unfold Sphere.ray_intersection ray_intersection_spec
    dsimp only
    have hd : r.dir.dot (r.pos.sub s.pos) ^ 2
          - (r.pos.sub s.pos).dot (r.pos.sub s.pos) + s.radius ^ 2
        = r.dir.dot (r.pos.sub s.pos) ^ 2
          - ((r.pos.sub s.pos).dot (r.pos.sub s.pos) - s.radius ^ 2) := by
      ring
    rw [hd]
  · intro sqrt h
    simp only [Sphere.ray_intersection, exSphere, xRay, Vector3.sub,
      Vector3.dot]
    norm_num
    rw [h]
    norm_num

/-- Witness for C2 at `sqrt = id`, which satisfies `sqrt 1 = 1`. -/
theorem C2_ray_intersection_matches_spec_formula_witness :
    Sphere.ray_intersection id exSphere xRay = some (3, 1) :=
  C2_ray_intersection_matches_spec_formula.2 id rfl

/-- C3: the per-object intersection of the `Object` capability set, on a
sphere whose quadratic reports the root pair `(t0, t1)` with
`t0 = -b + sqrt disc` and `t1 = -b - sqrt disc`, returns `t1` unless
`t1 < 0`, in which case it returns `t0` — the selected root itself,
whatever its sign. -/
theorem C3_object_intersection_selects_t1_unless_negative :
    ∀ (sqrt : ℚ → ℚ) (o : ObjectSphere) (r : Ray) (t0 t1 : ℚ),
      Sphere.ray_intersection sqrt ⟨o.pos, o.radius⟩ r = some (t0, t1) →
      o.ray_intersection sqrt r = some (if t1 < 0 then t0 else t1) := by
  intro sqrt o r t0 t1 h
  unfold ObjectSphere.ray_intersection
  rw [h]

/-- Witness for C3 at the behind-the-origin sphere, where the selected
root `t0 = -2` is itself negative and is returned raw. -/
theorem C3_object_intersection_selects_t1_unless_negative_witness :
    ObjectSphere.ray_intersection id sphereBehind xRay
      = some (if (-4 : ℚ) < 0 then -2 else -4) :=
  C3_object_intersection_selects_t1_unless_negative id sphereBehind xRay
    (-2) (-4)
    (by
      simp only [Sphere.ray_intersection, sphereBehind, xRay, Vector3.sub,
        Vector3.dot]
      norm_num)

/-- C1 fails on the code: the nearest-hit loop of `run` compares reported
roots with no positivity filter, so on a scene holding a sphere behind
the ray (reported root -2) and a sphere in front of it (reported root 4)
it selects the negative root -2 and the behind sphere, although a
positive root was available.  All quantities involved are small integers,
so the idealized `ℚ` arithmetic coincides with the `f64` computation. -/
theorem C1_nearest_hit_accepts_negative_root :
    nearestHit id [sphereBehind, sphereFront] xRay = some (-2, sphereBehind)
    ∧ (-2 : ℚ) < 0
    ∧ ObjectSphere.ray_intersection id sphereFront xRay = some 4
    ∧ (0 : ℚ) < 4 := by
  have hA : ObjectSphere.ray_intersection id sphereBehind xRay = some (-2) := by
    have h1 : Sphere.ray_intersection id ⟨sphereBehind.pos, sphereBehind.radius⟩ xRay
        = some (-2, -4) := by
      simp only [Sphere.ray_intersection, sphereBehind, xRay, Vector3.sub,
        Vector3.dot]
      norm_num
    unfold ObjectSphere.ray_intersection
    rw [h1]
    norm_num
  have hB : ObjectSphere.ray_intersection id sphereFront xRay = some 4 := by
    have h1 : Sphere.ray_intersection id ⟨sphereFront.pos, sphereFront.radius⟩ xRay
        = some (6, 4) := by
      simp only [Sphere.ray_intersection, sphereFront, xRay, Vector3.sub,
        Vector3.dot]
      norm_num
    unfold ObjectSphere.ray_intersection
    rw [h1]
    norm_num
  refine ⟨?_, by norm_num, hB, by norm_num⟩
  unfold nearestHit
  simp only [List.foldl]
  rw [hA, hB]
  norm_num

/-- C10: whenever `Sphere::ray_intersection` returns a pair `(t0, t1)`,
the pair is ordered with `t1 ≤ t0`, and the two roots are equal exactly
when the discriminant is zero — for any square-root function that is
positive on positive arguments, as `f64::sqrt` is. -/
theorem C10_returned_roots_are_ordered :
    ∀ (sqrt : ℚ → ℚ), (∀ x, 0 < x → 0 < sqrt x) →
    ∀ (s : Sphere) (r : Ray) (t0 t1 : ℚ),
      Sphere.ray_intersection sqrt s r = some (t0, t1) →
      t1 ≤ t0 ∧ (t0 = t1 ↔ s.discriminant r = 0) := by
  intro sqrt hs s r t0 t1 h
  unfold Sphere.ray_intersection at h
  dsimp only at h
  have hdisc : Sphere.discriminant s r
      = r.dir.dot (r.pos.sub s.pos) ^ 2
        - (r.pos.sub s.pos).dot (r.pos.sub s.pos) + s.radius ^ 2 := rfl
  split_ifs at h with h1 h2
  · rw [Option.some.injEq, Prod.mk.injEq] at h
    obtain ⟨ht0, ht1⟩ := h
    subst ht0
    subst ht1
    exact ⟨le_refl _, by simp [hdisc, h2]⟩
  · have hd : 0 < r.dir.dot (r.pos.sub s.pos) ^ 2
        - (r.pos.sub s.pos).dot (r.pos.sub s.pos) + s.radius ^ 2 :=
      lt_of_le_of_ne (not_lt.mp h1) (Ne.symm h2)
    have hsq := hs _ hd
    rw [Option.some.injEq, Prod.mk.injEq] at h
    obtain ⟨ht0, ht1⟩ := h
    subst ht0
    subst ht1
    refine ⟨by linarith, ?_⟩
    constructor
    · intro heq
      exfalso
      linarith
    · intro hc
      exfalso
      rw [hdisc] at hc
      exact h2 hc

/-- Witness for C10 at `sqrt = id` (positive on positives) and the
section 8 example, whose roots are (3, 1). -/
theorem C10_returned_roots_are_ordered_witness :
    (1 : ℚ) ≤ 3 ∧ ((3 : ℚ) = 1 ↔ exSphere.discriminant xRay = 0) :=
  C10_returned_roots_are_ordered id (fun _ h => h) exSphere xRay 3 1
    (by
      simp only [Sphere.ray_intersection, exSphere, xRay, Vector3.sub,
        Vector3.dot, id_eq]
      norm_num)

/-- The zero-clamp written as an `if`, as the source has it, equals the
spec's `max(0, ·)`. -/
lemma clamp_eq_max (x : ℚ) : (if x < 0 then 0 else x) = max 0 x := by
  rcases lt_or_le x 0 with h | h
  · rw [if_pos h, max_eq_left h.le]
  · rw [if_neg (not_lt.mpr h), max_eq_right h]

/-- C4: the shading branch of `run` computes exactly the spec's formula:
hit point `P = O + t·D`, inward normal `N = normalize(object.position - P)`,
view vector `V = normalize(P - camera_pos)`, intensity `k = max(0, N·V)`,
and each 8-bit material channel multiplied by `k` and truncated to the
channel range. -/
theorem C4_shading_matches_spec_formula :
    ∀ (sqrt : ℚ → ℚ) (camera_pos : Vector3 ℚ) (r : Ray) (t : ℚ)
      (obj : ObjectSphere),
      shadeHit sqrt camera_pos r t obj
        = shadeSpec sqrt camera_pos r.pos r.dir t obj.pos
            obj.material.color := by
  intro sqrt camera_pos r t obj
  unfold shadeHit shadeSpec ObjectSphere.position
  dsimp only
  rw [clamp_eq_max]

/-- C5: the perspective arm of the per-pixel direction computation equals
the spec's section 4.4 formula: NDC `((dx+0.5)/W, (dy+0.5)/H)`, screen
space via `2·ndc - 1`, x scaled by `aspect_ratio · tan(fovx/2)` and y by
`tan(fovy/2)` (both angles pre-multiplied by the degree-to-radian
constant), depth `z = -1`, then normalized. -/
theorem C5_perspective_direction_matches_spec_formula :
    ∀ (sqrt tan : ℚ → ℚ) (deg2rad fovx fovy width height dx dy : ℚ),
      perspectiveDir sqrt tan deg2rad fovx fovy width height dx dy
        = perspectiveDirSpec sqrt tan deg2rad fovx fovy width height dx dy := by
  intro sqrt tan deg2rad fovx fovy width height dx dy
  unfold perspectiveDir perspectiveDirSpec
  dsimp only
  rw [mul_assoc (2 * ((dx + 1/2) / width) - 1) (width / height)
    (tan (fovx / 2 * deg2rad))]

/-- C6: the orthographic arm maps the pixel to
`x = (dx - W/2)/W`, `y = (dy - H/2)/H`, forms
`normalize((x, y, 0) + camera_dir)` as the ray direction, and uses the
camera position as the ray origin for every pixel. -/
theorem C6_ortho_ray_matches_spec_formula :
    ∀ (sqrt : ℚ → ℚ) (camera_pos camera_dir : Vector3 ℚ)
      (width height dx dy : ℚ),
      orthoRay sqrt camera_pos camera_dir width height dx dy
        = ⟨camera_pos,
           ((Vector3.mk ((dx - width / 2) / width) ((dy - height / 2) / height)
              0).add camera_dir).into_unit sqrt⟩
      ∧ (orthoRay sqrt camera_pos camera_dir width height dx dy).pos
          = camera_pos := by
  intro sqrt camera_pos camera_dir width height dx dy
  exact ⟨rfl, rfl⟩

/-- C7: the projection-mode state machine has exactly the two states
`Ortho` and `Perspective`, starts in `Perspective`, and the toggle maps
each state to the other, so toggling twice is the identity. -/
theorem C7_projection_mode_state_machine :
    initialMode = .Perspective
    ∧ toggleProjection .Ortho = .Perspective
    ∧ toggleProjection .Perspective = .Ortho
    ∧ (∀ m, toggleProjection (toggleProjection m) = m)
    ∧ (∀ m : ProjectionMode, m = .Ortho ∨ m = .Perspective) := by
  refine ⟨rfl, rfl, rfl, fun m => ?_, fun m => ?_⟩
  · cases m <;> rfl
  · cases m
    · exact Or.inl rfl
    · exact Or.inr rfl

/-- `n` deliveries of the `Up` key add `n` degrees to `fovy` and touch
nothing else. -/
lemma applyN_keyUp (n : ℕ) (s : RenderState) :
    applyN .keyUp n s = { s with fovy := s.fovy + n } := by
  induction n generalizing s with
  | zero => simp [applyN]
  | succ n ih =>
    rw [applyN, ih]
    simp [handleEvent]
    ring

/-- `n` deliveries of the `Down` key subtract `n` degrees from `fovy` and
touch nothing else. -/
lemma applyN_keyDown (n : ℕ) (s : RenderState) :
    applyN .keyDown n s = { s with fovy := s.fovy - n } := by
  induction n generalizing s with
  | zero => simp [applyN]
  | succ n ih =>
    rw [applyN, ih]
    simp [handleEvent]
    ring

/-- C8: each FOV-adjust event changes exactly its one field-of-view angle
by exactly 1 degree and nothing else, and `n` `Down` events followed by
`n` `Up` events restore the whole state (exactly, in the idealized
arithmetic that replaces the floating-point accumulation). -/
theorem C8_fov_adjust_events :
    (∀ s, handleEvent s .keyUp = { s with fovy := s.fovy + 1 })
    ∧ (∀ s, handleEvent s .keyDown = { s with fovy := s.fovy - 1 })
    ∧ (∀ s, handleEvent s .keyRight = { s with fovx := s.fovx + 1 })
    ∧ (∀ s, handleEvent s .keyLeft = { s with fovx := s.fovx - 1 })
    ∧ ∀ (n : ℕ) (s : RenderState), applyN .keyUp n (applyN .keyDown n s) = s := by
  refine ⟨fun s => rfl, fun s => rfl, fun s => rfl, fun s => rfl, fun n s => ?_⟩
  rw [applyN_keyDown, applyN_keyUp]
  cases s
  simp

/-- Finite `FP` values multiply exactly. -/
lemma FP.finite_mul (a b : ℚ) : FP.finite a * FP.finite b = FP.finite (a * b) :=
  rfl

/-- Finite `FP` values add exactly. -/
lemma FP.finite_add (a b : ℚ) : FP.finite a + FP.finite b = FP.finite (a + b) :=
  rfl

/-- The IEEE quotient `0/0` is `nan`. -/
lemma FP.zero_div_zero : FP.finite 0 / FP.finite 0 = FP.nan := by
  show FP.div (.finite 0) (.finite 0) = FP.nan
  simp [FP.div]

/-- C9: on the zero-length vector, `Vector3::into_unit` and
`Vector3::normalize` run to completion under the IEEE-754 rules (the
embedding is total, as the `f64` operations are panic-free) and produce
a vector all of whose components are NaN — the detectable invalid value
the spec requires instead of a fatal error.  The hypothesis `s 0 = 0` is
IEEE-754's exactness guarantee for `sqrt(0)`. -/
theorem C9_normalize_zero_vector_yields_nan :
    ∀ s : ℚ → ℚ, s 0 = 0 →
      zeroVecFP.into_unit (FP.sqrtWith s) = ⟨.nan, .nan, .nan⟩
      ∧ zeroVecFP.normalize (FP.sqrtWith s) = ⟨.nan, .nan, .nan⟩ := by
  intro s hs
  have hdot : zeroVecFP.dot zeroVecFP = FP.finite 0 := by
    simp [zeroVecFP, Vector3.dot, FP.finite_mul, FP.finite_add]
  have hlen : zeroVecFP.length (FP.sqrtWith s) = FP.finite 0 := by
    rw [Vector3.length, hdot]
    simp [FP.sqrtWith, hs]
  constructor
  · unfold Vector3.into_unit
    dsimp only
    rw [hlen]
    simp [zeroVecFP, FP.zero_div_zero]
  · unfold Vector3.normalize
    dsimp only
    rw [hlen]
    simp [zeroVecFP, FP.zero_div_zero]

/-- Witness for C9 at `s = id`, which satisfies `s 0 = 0`. -/
theorem C9_normalize_zero_vector_yields_nan_witness :
    zeroVecFP.into_unit (FP.sqrtWith id) = ⟨.nan, .nan, .nan⟩
    ∧ zeroVecFP.normalize (FP.sqrtWith id) = ⟨.nan, .nan, .nan⟩ :=
  C9_normalize_zero_vector_yields_nan id rfl

end RayTracer
